import Mathlib

/-
Verification of the milter protocol session engine
(vendor/github.com/phalaaxx/milter: session.go, message.go, server.go).

Bytes are modelled as `Nat` values (< 256 on real wire data); byte
sequences and Go strings as `List Nat`; Go's `uint32` arithmetic with
explicit `% 2^32`.  Fallible and crashing control flow is made explicit:
`log.Fatal` (process-wide termination, deferred calls skipped) and
runtime panics (slice index out of range; deferred calls run) are
distinct outcome constructors, so that safety claims about "never
crash" can be settled against the code as written.
-/

namespace Milter

/-- Byte sequences (Go `[]byte` / `string`). -/
abbrev Bytes := List Nat

/-- Big-endian encoding of a 32-bit value, as `binary.Write`/`binary.BigEndian`
does for `uint32`; each byte is reduced `% 256` and only the low 32 bits of
the input matter. -/
def be32enc (n : Nat) : Bytes :=
  [n / 2 ^ 24 % 256, n / 2 ^ 16 % 256, n / 2 ^ 8 % 256, n % 256]

/-- Big-endian decoding of the first two bytes, as `binary.BigEndian.Uint16`;
only applied by the code after checking that two bytes are present. -/
def be16 : Bytes → Nat
  | a :: b :: _ => a * 256 + b
  | [a] => a * 256
  | [] => 0

/-- `Message` from message.go: a command byte plus payload data. -/
structure Message where
  Code : Nat
  Data : Bytes
deriving DecidableEq, Repr

/-- Go `error` values the session engine distinguishes: the sentinel
`errCloseSession`, `io.EOF`, and arbitrary other errors (e.g. returned by
filter callbacks). -/
inductive GoError where
  | closeSession : GoError
  | eof : GoError
  | other : String → GoError
deriving DecidableEq, Repr

/-- Modelled from the spec: `errCloseSession`, the sentinel error used by
`Process` to request silent session termination (its definition is not
under src/, only its uses in session.go). -/
def errCloseSession : GoError := GoError.closeSession

/-- Modelled from the spec (§4.5): a `Response` is either a simple
one-byte verdict (`SimpleResponse`) or a structured response built by
`NewResponse` with a code and payload; the `Response` interface itself is
not under src/, only the codes in message.go and its uses in session.go. -/
inductive MilterResponse where
  | simple : Nat → MilterResponse
  | custom : Nat → Bytes → MilterResponse
deriving DecidableEq, Repr

/-- Modelled from the spec: `NewResponse` wraps a code and payload into a
structured response. -/
def NewResponse (code : Nat) (data : Bytes) : MilterResponse :=
  MilterResponse.custom code data

/-- `RespContinue`: the simple verdict with code `continueMilter` = 'c' (99). -/
def RespContinue : MilterResponse := MilterResponse.simple 99

/-- `RespTempFail`: the simple verdict with code `tempFailMilter` = 't' (116). -/
def RespTempFail : MilterResponse := MilterResponse.simple 116

/-- The outbound frame of a response: simple verdicts carry no payload. -/
def MilterResponse.toMessage : MilterResponse → Message
  | MilterResponse.simple c => { Code := c, Data := [] }
  | MilterResponse.custom c d => { Code := c, Data := d }

/-- Modelled from the spec (§4.5): whether the session keeps reading after
this response; `true` for everything except the terminal simple verdicts
(accept 'a', discard 'd', reject 'r', temp-fail 't'). -/
def MilterResponse.Continue : MilterResponse → Bool
  | MilterResponse.simple c => decide (c = 99)
  | MilterResponse.custom _ _ => true

/-- Modelled from the spec (§4.2): `readCString` scans to the first null
byte and returns the bytes before it (the whole input when no null is
present, as session.go's uses require). -/
def readCString : Bytes → Bytes
  | [] => []
  | b :: bs => if b = 0 then [] else b :: readCString bs

/-- Modelled from the spec (§4.2): `decodeCStrings` repeatedly applies
`readCString` (consuming the terminator) until the input is exhausted. -/
def decodeCStrings (bs : Bytes) : List Bytes :=
  match bs with
  | [] => []
  | b :: rest =>
    let s := readCString (b :: rest)
    s :: decodeCStrings ((b :: rest).drop (s.length + 1))
termination_by bs.length
decreasing_by
  simp [List.length_drop]
  omega

/-- Go `textproto`: whether a byte may appear in a canonical header key
(RFC 7230 tchar: letters, digits, and the 15 listed symbols). -/
def validHeaderFieldByte (c : Nat) : Bool :=
  decide ((48 ≤ c ∧ c ≤ 57) ∨ (65 ≤ c ∧ c ≤ 90) ∨ (97 ≤ c ∧ c ≤ 122) ∨
    c = 33 ∨ c = 35 ∨ c = 36 ∨ c = 37 ∨ c = 38 ∨ c = 39 ∨ c = 42 ∨
    c = 43 ∨ c = 45 ∨ c = 46 ∨ c = 94 ∨ c = 95 ∨ c = 96 ∨ c = 124 ∨ c = 126)

/-- Go `textproto` canonicalization pass: uppercase the first letter and
every letter following a hyphen (45), lowercase the rest. -/
def canonPass : Bytes → Bool → Bytes
  | [], _ => []
  | c :: rest, upper =>
    let c' := if upper ∧ 97 ≤ c ∧ c ≤ 122 then c - 32
      else if ¬ upper ∧ 65 ≤ c ∧ c ≤ 90 then c + 32
      else c
    c' :: canonPass rest (c' = 45)

/-- Go `textproto.CanonicalMIMEHeaderKey`: canonicalize when every byte is
a valid header field byte, otherwise return the key unchanged. -/
def canonicalMIMEHeaderKey (bs : Bytes) : Bytes :=
  if bs.all validHeaderFieldByte then canonPass bs true else bs

/-- Go `textproto.MIMEHeader` is a plain `map[string][]string`: unordered
across keys, with an ordered value slice per key.  The representation
here is an association list with unique keys, but the list's cross-key
order is a representation artifact the program cannot observe; the only
observations used are per-key lookups (`mimeGet`, Go's `h[k]`), which are
insensitive to the representation order. -/
abbrev MIMEHeader := List (Bytes × List Bytes)

/-- `MIMEHeader.Add`: canonicalize the key and append the value to its
value slice, inserting the key when absent. -/
def mimeAdd (h : MIMEHeader) (k v : Bytes) : MIMEHeader :=
  let ck := canonicalMIMEHeaderKey k
  if h.any (fun e => e.1 == ck) then
    h.map (fun e => if e.1 == ck then (e.1, e.2 ++ [v]) else e)
  else h ++ [(ck, [v])]

/-- Go map indexing `h[k]` on a `MIMEHeader`: the value slice stored
under `k`, or the zero value (nil) when the key is absent.  This is the
map observation — it does not depend on the association list's order
when keys are unique, as `mimeAdd` keeps them. -/
def mimeGet (h : MIMEHeader) (k : Bytes) : List Bytes :=
  match h.find? (fun e => e.1 == k) with
  | some e => e.2
  | none => []

/-- Go `map[string]string` for macros, as an association list. -/
abbrev MacroMap := List (Bytes × Bytes)

/-- Go map assignment `m[k] = v`: replace an existing binding or append. -/
def macroSet (m : MacroMap) (k v : Bytes) : MacroMap :=
  if m.any (fun e => e.1 == k) then
    m.map (fun e => if e.1 == k then (e.1, v) else e)
  else m ++ [(k, v)]

/-- The loop `for i := 0; i < len(data); i += 2` storing `data[i] -> data[i+1]`
in session.go's 'D' case; `none` marks the index-out-of-range panic at
`data[i+1]` when the decoded list has odd length. -/
def storeMacros : List Bytes → MacroMap → Option MacroMap
  | [], m => some m
  | [_], _ => none
  | k :: v :: rest, m => storeMacros rest (macroSet m k v)

/-- Go `strings.TrimSuffix(s, null)`: drop one trailing null byte if present. -/
def trimSuffixNull (bs : Bytes) : Bytes :=
  if bs.getLast? = some 0 then bs.dropLast else bs

/-- Go `strings.Trim(s, "<>")`: drop all leading and trailing '<' (60) and
'>' (62) bytes. -/
def trimAngles (bs : Bytes) : Bytes :=
  ((bs.dropWhile (fun b => b == 60 || b == 62)).reverse.dropWhile
    (fun b => b == 60 || b == 62)).reverse

/-- The `family` lookup table of session.go's 'C' case; a missing key
yields the Go zero value "" (the empty byte string). -/
def familyName (b : Nat) : Bytes :=
  if b = 85 then [117, 110, 107, 110, 111, 119, 110]
  else if b = 76 then [117, 110, 105, 120]
  else if b = 52 then [116, 99, 112, 52]
  else if b = 54 then [116, 99, 112, 54]
  else []

/-- Modelled from the spec (§4.3, §6): the pluggable `Milter` callback
interface (its declaration is not under src/, only its uses in
session.go).  Each callback returns Go's `(Response, error)` pair; the
per-callback `Modifier` argument is omitted because (per §4.4) it only
stages response data and never mutates session fields, and no claim
depends on it.  `Connect` receives the parsed address as produced by
`net.ParseIP` (see `Process`'s `parseIP` parameter). -/
structure Milter where
  Connect : Bytes → Bytes → Nat → Option Bytes → Option MilterResponse × Option GoError
  Helo : Bytes → Option MilterResponse × Option GoError
  MailFrom : Bytes → Option MilterResponse × Option GoError
  RcptTo : Bytes → Option MilterResponse × Option GoError
  Header : Bytes → Bytes → Option MilterResponse × Option GoError
  Headers : Option MIMEHeader → Option MilterResponse × Option GoError
  BodyChunk : Bytes → Option MilterResponse × Option GoError
  Body : Option MilterResponse × Option GoError

/-- `milterSession` from session.go: negotiated bitmasks (Go `uint32`),
nilable headers and macros, and the pluggable filter.  The socket is
modelled externally as the byte stream passed to `ReadPacket` /
`HandleMilterCommands`. -/
structure milterSession where
  actions : Nat
  protocol : Nat
  headers : Option MIMEHeader
  macros : Option MacroMap
  milter : Milter

/-- Outcome of `ReadPacket` on a byte stream: a decoded message plus the
remaining stream, or `fatal` (a `log.Fatal` call: whole-process exit,
deferred `Close` skipped), or `panicked` (runtime panic: index out of
range at `data[0]`). -/
inductive RPOut where
  | ok : Message → Bytes → RPOut
  | fatal : RPOut
  | panicked : RPOut

/-- `ReadPacket` from session.go: read a 4-byte big-endian length, then
that many bytes; the first is the command, the rest the payload.  Both
read-error branches call `log.Fatal` before their (dead) `return nil, err`,
so a short stream is `fatal`, never a returned error; a declared length
of 0 makes `data[0]` panic. -/
def ReadPacket (stream : Bytes) : RPOut :=
  match stream with
  | e0 :: e1 :: e2 :: e3 :: rest =>
    let length := ((e0 * 256 + e1) * 256 + e2) * 256 + e3
    if rest.length < length then RPOut.fatal
    else
      match rest.take length with
      | [] => RPOut.panicked
      | x :: xs => RPOut.ok { Code := x, Data := xs } (rest.drop length)
  | _ => RPOut.fatal

/-- `WritePacket` from session.go, as the byte sequence it emits: the
4-byte big-endian value of `uint32(len(Data) + 1)`, the command byte, the
data (buffered, then flushed as one write). -/
def WritePacket (msg : Message) : Bytes :=
  be32enc ((msg.Data.length + 1) % 2 ^ 32) ++ msg.Code :: msg.Data

/-- Outcome of `Process`: the updated session with Go's `(Response, error)`
pair and the number of `log.Printf` calls made, or a runtime panic. -/
inductive ProcOut where
  | ok : milterSession → Option MilterResponse → Option GoError → Nat → ProcOut
  | panicked : ProcOut

/-- The session carried by a `Process` outcome, with a default for the
panic case. -/
def ProcOut.stateOr (d : milterSession) : ProcOut → milterSession
  | ProcOut.ok c _ _ _ => c
  | ProcOut.panicked => d

/-- `Process` from session.go, one branch per command byte, in source
order: 'A' 65, 'B' 66, 'C' 67, 'D' 68, 'E' 69, 'H' 72, 'L' 76, 'M' 77,
'N' 78, 'O' 79, 'Q' 81, 'R' 82, 'T' 84, default.  `parseIP` stands for
the Go standard library's `net.ParseIP`, left as a parameter because no
claim depends on the parsed address value.  Slice expressions that panic
in Go (`Data[len+1:]` past the end, `Data[0]` on empty, `Data[1:]` on
empty) are the `panicked` outcomes. -/
def Process (parseIP : Bytes → Option Bytes) (c : milterSession) (msg : Message) :
    ProcOut :=
  if msg.Code = 65 then
    ProcOut.ok { c with headers := none, macros := none } none none 0
  else if msg.Code = 66 then
    let r := c.milter.BodyChunk msg.Data
    ProcOut.ok c r.1 r.2 0
  else if msg.Code = 67 then
    let Hostname := readCString msg.Data
    if msg.Data.length < Hostname.length + 1 then ProcOut.panicked
    else
      match msg.Data.drop (Hostname.length + 1) with
      | [] => ProcOut.panicked
      | protocolFamily :: afterFam =>
        if protocolFamily = 52 ∨ protocolFamily = 54 then
          if afterFam.length < 2 then ProcOut.ok c (some RespTempFail) none 0
          else
            let Port := be16 afterFam
            let Address := readCString (afterFam.drop 2)
            let r := c.milter.Connect Hostname (familyName protocolFamily) Port
              (parseIP Address)
            ProcOut.ok c r.1 r.2 0
        else
          let Address := readCString afterFam
          let r := c.milter.Connect Hostname (familyName protocolFamily) 0
            (parseIP Address)
          ProcOut.ok c r.1 r.2 0
  else if msg.Code = 68 then
    if msg.Data.length < 1 then ProcOut.panicked
    else
      match storeMacros (decodeCStrings (msg.Data.drop 1)) [] with
      | none => ProcOut.panicked
      | some m => ProcOut.ok { c with macros := some m } none none 0
  else if msg.Code = 69 then
    let r := c.milter.Body
    ProcOut.ok c r.1 r.2 0
  else if msg.Code = 72 then
    let r := c.milter.Helo (trimSuffixNull msg.Data)
    ProcOut.ok c r.1 r.2 0
  else if msg.Code = 76 then
    let h0 := c.headers.getD []
    match decodeCStrings msg.Data with
    | [k, v] =>
      let r := c.milter.Header k v
      ProcOut.ok { c with headers := some (mimeAdd h0 k v) } r.1 r.2 0
    | _ => ProcOut.ok { c with headers := some h0 } (some RespContinue) none 0
  else if msg.Code = 77 then
    let r := c.milter.MailFrom (trimAngles (readCString msg.Data))
    ProcOut.ok c r.1 r.2 0
  else if msg.Code = 78 then
    let r := c.milter.Headers c.headers
    ProcOut.ok c r.1 r.2 0
  else if msg.Code = 79 then
    ProcOut.ok c
      (some (NewResponse 79 (be32enc 2 ++ be32enc c.actions ++ be32enc c.protocol)))
      none 0
  else if msg.Code = 81 then
    ProcOut.ok c none (some errCloseSession) 0
  else if msg.Code = 82 then
    let r := c.milter.RcptTo (trimAngles (readCString msg.Data))
    ProcOut.ok c r.1 r.2 0
  else if msg.Code = 84 then
    ProcOut.ok c (some RespContinue) none 0
  else
    ProcOut.ok c none (some errCloseSession) 1

/-- How the session loop ends: a plain return (the deferred `Close` runs),
a `log.Fatal` inside an operation (process exit, deferred calls skipped),
or a runtime panic (deferred `Close` runs, then the process dies). -/
inductive LoopExit where
  | normal : LoopExit
  | fatal : LoopExit
  | panicked : LoopExit
deriving DecidableEq, Repr

/-- Observable behaviour of one run of the session loop: every byte
written to the transport, the number of `log.Printf` calls, whether the
socket got closed, and how the loop ended. -/
structure LoopOut where
  written : Bytes
  logged : Nat
  sockClosed : Bool
  exit : LoopExit
deriving DecidableEq, Repr

/-- A successfully decoded packet consumes at least five bytes of the
stream (4 length bytes and a nonempty body). -/
theorem readPacket_ok_length {stream : Bytes} {msg : Message} {rest : Bytes}
    (h : ReadPacket stream = RPOut.ok msg rest) : rest.length < stream.length := by
  unfold ReadPacket at h
  split at h
  case h_2 => exact absurd h (by simp)
  case h_1 e0 e1 e2 e3 t =>
    dsimp only at h
    split at h
    · exact absurd h (by simp)
    · split at h
      · exact absurd h (by simp)
      · simp only [RPOut.ok.injEq] at h
        obtain ⟨-, h2⟩ := h
        subst h2
        simp only [List.length_drop, List.length_cons]
        omega

/-- `HandleMilterCommands` from session.go: read a packet, dispatch it,
write back any response, and continue until an error, a non-continue
response, a `log.Fatal` or a panic ends the loop.  A read error is
`fatal` before the loop's own EOF check can run (see `ReadPacket`); a
`Process` error ends the loop, logged unless it is `errCloseSession`; a
response is written with `WritePacket` and the loop continues only when
`Response.Continue()` holds. -/
def HandleMilterCommands (parseIP : Bytes → Option Bytes) (c : milterSession)
    (stream : Bytes) : LoopOut :=
  match h : ReadPacket stream with
  | RPOut.fatal => { written := [], logged := 0, sockClosed := false, exit := LoopExit.fatal }
  | RPOut.panicked => { written := [], logged := 0, sockClosed := true, exit := LoopExit.panicked }
  | RPOut.ok msg rest =>
    match Process parseIP c msg with
    | ProcOut.panicked =>
      { written := [], logged := 0, sockClosed := true, exit := LoopExit.panicked }
    | ProcOut.ok c' resp errOpt logs =>
      match errOpt with
      | some e =>
        { written := [], logged := logs + (if e = errCloseSession then 0 else 1),
          sockClosed := true, exit := LoopExit.normal }
      | none =>
        match resp with
        | none =>
          let r := HandleMilterCommands parseIP c' rest
          { written := r.written, logged := logs + r.logged,
            sockClosed := r.sockClosed, exit := r.exit }
        | some resp =>
          let bytes := WritePacket resp.toMessage
          if resp.Continue then
            let r := HandleMilterCommands parseIP c' rest
            { written := bytes ++ r.written, logged := logs + r.logged,
              sockClosed := r.sockClosed, exit := r.exit }
          else
            { written := bytes, logged := logs, sockClosed := true,
              exit := LoopExit.normal }
termination_by stream.length
decreasing_by
  all_goals exact readPacket_ok_length h

/-- A filter whose callbacks all return `(RespContinue, nil)`; used to
instantiate concrete sessions. -/
def nullMilter : Milter where
  Connect _ _ _ _ := (some RespContinue, none)
  Helo _ := (some RespContinue, none)
  MailFrom _ := (some RespContinue, none)
  RcptTo _ := (some RespContinue, none)
  Header _ _ := (some RespContinue, none)
  Headers _ := (some RespContinue, none)
  BodyChunk _ := (some RespContinue, none)
  Body := (some RespContinue, none)

/-- A freshly created session as `RunServer` builds it (headers and
macros are Go `nil`), with sample bitmasks. -/
def baseSession : milterSession where
  actions := 5
  protocol := 3
  headers := none
  macros := none
  milter := nullMilter

/-- A stand-in for `net.ParseIP` in concrete evaluations. -/
def noIP : Bytes → Option Bytes := fun _ => none

/-- Big-endian 32-bit decode of encode is the identity below `2^32`. -/
theorem be32_roundtrip (n : Nat) (h : n < 2 ^ 32) :
    ((n / 2 ^ 24 % 256 * 256 + n / 2 ^ 16 % 256) * 256 + n / 2 ^ 8 % 256) * 256
      + n % 256 = n := by
  omega

/-- Decoding a stream that starts with an encoded frame yields exactly
that frame and leaves the rest of the stream untouched. -/
theorem readPacket_encode (code : Nat) (d rest : Bytes)
    (h : d.length + 1 < 2 ^ 32) :
    ReadPacket (be32enc (d.length + 1) ++ code :: d ++ rest)
      = RPOut.ok { Code := code, Data := d } rest := by
  have hm : (d.length + 1) % 2 ^ 32 = d.length + 1 := Nat.mod_eq_of_lt h
  unfold ReadPacket be32enc
  simp only [List.cons_append, List.nil_append, List.append_assoc]
  rw [be32_roundtrip (d.length + 1) h]
  have hlen : ¬ (code :: (d ++ rest)).length < d.length + 1 := by
    simp [List.length_cons, List.length_append]
  rw [if_neg hlen]
  have htake : (code :: (d ++ rest)).take (d.length + 1) = code :: d := by
    simp [List.take_succ_cons, List.take_left]
  have hdrop : (code :: (d ++ rest)).drop (d.length + 1) = rest := by
    simp [List.drop_succ_cons, List.drop_left]
  rw [htake, hdrop]

/-- `readCString` returns exactly the bytes before the terminator when
the input is a null-free run followed by a null. -/
theorem readCString_append (n t : Bytes) (hn : 0 ∉ n) :
    readCString (n ++ 0 :: t) = n := by
  induction n with
  | nil => simp [readCString]
  | cons b bs ih =>
    simp only [List.mem_cons, not_or] at hn
    rw [List.cons_append, readCString]
    rw [if_neg (fun hb => hn.1 hb.symm), ih hn.2]

/-- `readCString` never reads past the input. -/
theorem readCString_length_le (bs : Bytes) : (readCString bs).length ≤ bs.length := by
  induction bs with
  | nil => simp [readCString]
  | cons b t ih =>
    simp only [readCString]
    split
    · simp
    · simpa using Nat.succ_le_succ ih

/-- `decodeCStrings` peels one null-terminated field at a time. -/
theorem decodeCStrings_cons (n t : Bytes) (hn : 0 ∉ n) :
    decodeCStrings (n ++ 0 :: t) = n :: decodeCStrings t := by
  have hr : readCString (n ++ 0 :: t) = n := readCString_append n t hn
  have hd : (n ++ 0 :: t).drop (n.length + 1) = t := by
    rw [← List.drop_drop]
    simp [List.drop_left]
  match hm : n ++ 0 :: t with
  | [] => exact absurd hm (by simp)
  | b :: bs =>
    rw [decodeCStrings]
    rw [← hm, hr, hd]

/-- Equal `ProcOut.ok` outcomes carry equal session states. -/
theorem procOk_state_eq {x y : milterSession} {r1 r2 : Option MilterResponse}
    {e1 e2 : Option GoError} {l1 l2 : Nat}
    (h : ProcOut.ok x r1 e1 l1 = ProcOut.ok y r2 e2 l2) : y = x := by
  injection h with h1 _ _ _
  exact h1.symm

/-- C1: the claim says a frame with declared length 0, or a define-macros
command decoding to an odd number of C-strings, reaches an error result
and never crashes.  The code instead panics: `ReadPacket` indexes
`data[0]` on an empty slice when the declared length is 0, and the 'D'
case of `Process` indexes `data[i+1]` past the end on an odd pair list;
an unrecovered panic in the session goroutine kills the whole process.
This theorem evaluates the code at both failing inputs. -/
theorem C1_malformed_frame_panics :
    ReadPacket [0, 0, 0, 0] = RPOut.panicked
    ∧ Process noIP baseSession { Code := 68, Data := [43, 97, 0] }
        = ProcOut.panicked := by
  refine ⟨rfl, ?_⟩
  show Process noIP baseSession { Code := 68, Data := [43, 97, 0] } = ProcOut.panicked
  rw [Process]
  norm_num
  rw [decodeCStrings]
  norm_num [readCString]
  rw [decodeCStrings]
  simp [storeMacros]

/-- C2: the claim says every transport read failure is returned to the
caller as a per-session error (never process-wide termination), with a
clean EOF ending the session unlogged.  In the code both error branches
of `ReadPacket` call `log.Fatal` ("dempo2"/"dempo") before their dead
`return nil, err`, so any read failure — including a clean EOF, modelled
here as the empty stream, and a truncated frame body — terminates the
whole process; the loop's EOF check is unreachable. -/
theorem C2_read_error_is_fatal :
    ReadPacket [] = RPOut.fatal ∧ ReadPacket [0, 0, 0, 1] = RPOut.fatal := ⟨rfl, rfl⟩

/-- C3: round-trip of the frame codec — `WritePacket` emits the 4-byte
big-endian length `1 + len(Data)` (as `uint32`), then the command byte,
then the data; `ReadPacket` on those bytes (followed by anything) yields
the same frame and leaves the rest of the stream. -/
theorem C3_frame_roundtrip (msg : Message) (rest : Bytes)
    (h : msg.Data.length + 1 < 2 ^ 32) :
    WritePacket msg
      = be32enc ((msg.Data.length + 1) % 2 ^ 32) ++ msg.Code :: msg.Data
    ∧ ReadPacket (WritePacket msg ++ rest) = RPOut.ok msg rest := by
  refine ⟨rfl, ?_⟩
  unfold WritePacket
  rw [Nat.mod_eq_of_lt h]
  exact readPacket_encode msg.Code msg.Data rest h

/-- Witness for C3 at the concrete frame ('c', "hi"). -/
theorem C3_frame_roundtrip_witness :
    ([104, 105] : Bytes).length + 1 < 2 ^ 32
    ∧ (WritePacket { Code := 99, Data := [104, 105] }
        = be32enc ((([104, 105] : Bytes).length + 1) % 2 ^ 32) ++ 99 :: [104, 105]
      ∧ ReadPacket (WritePacket { Code := 99, Data := [104, 105] } ++ [7])
          = RPOut.ok { Code := 99, Data := [104, 105] } [7]) :=
  ⟨by norm_num, C3_frame_roundtrip { Code := 99, Data := [104, 105] } [7] (by norm_num)⟩

/-- C4: negotiation echo — for every negotiate command ('O'), whatever
the client proposed in the payload, `Process` answers with a negotiate
response whose payload is the three big-endian u32 values version 2, the
session's own action bitmask and its own protocol bitmask, verbatim (no
intersection with the proposal), with no error and no state change. -/
theorem C4_negotiate_echo (parseIP : Bytes → Option Bytes) (c : milterSession)
    (data : Bytes) :
    Process parseIP c { Code := 79, Data := data }
      = ProcOut.ok c
          (some (NewResponse 79 (be32enc 2 ++ be32enc c.actions ++ be32enc c.protocol)))
          none 0 := rfl

/-- C7: a connection-info command whose family byte is '4' (52) or '6'
(54) but whose payload after the hostname and family byte holds fewer
than the 2 port bytes makes `Process` return the TempFail verdict with no
error and no state change — not a crash and not a fatal close. -/
theorem C7_short_ip_connect_tempfail (parseIP : Bytes → Option Bytes)
    (c : milterSession) (host : Bytes) (fam : Nat) (rest : Bytes)
    (hh : 0 ∉ host) (hf : fam = 52 ∨ fam = 54) (hr : rest.length < 2) :
    Process parseIP c { Code := 67, Data := host ++ 0 :: fam :: rest }
      = ProcOut.ok c (some RespTempFail) none 0 := by
  have h1 : readCString (host ++ 0 :: fam :: rest) = host :=
    readCString_append host (fam :: rest) hh
  have h2 : (host ++ 0 :: fam :: rest).drop (host.length + 1) = fam :: rest := by
    rw [← List.drop_drop]
    simp [List.drop_left]
  have h3 : ¬ (host ++ 0 :: fam :: rest).length < host.length + 1 := by
    simp [List.length_append]
  rcases hf with hf | hf <;> subst hf <;>
    simp [Process, h1, h2, h3, hr, Nat.not_lt.mpr]

/-- Witness for C7: hostname "h", family '4', one-byte remainder. -/
theorem C7_short_ip_connect_tempfail_witness :
    (0 : Nat) ∉ ([104] : Bytes) ∧ ((52 : Nat) = 52 ∨ (52 : Nat) = 54)
    ∧ ([9] : Bytes).length < 2
    ∧ Process noIP baseSession { Code := 67, Data := [104] ++ 0 :: 52 :: [9] }
        = ProcOut.ok baseSession (some RespTempFail) none 0 :=
  ⟨by decide, Or.inl rfl, by decide,
    C7_short_ip_connect_tempfail noIP baseSession [104] 52 [9]
      (by decide) (Or.inl rfl) (by decide)⟩

/-- C9: bitmask immutability — whatever command `Process` handles, any
non-panicking outcome carries a session whose action and protocol
bitmasks are those of the incoming session; no branch assigns to them
(and `ReadPacket`/`WritePacket` do not touch the session at all). -/
theorem C9_masks_immutable (parseIP : Bytes → Option Bytes) (c : milterSession)
    (msg : Message) (c' : milterSession) (resp : Option MilterResponse)
    (err : Option GoError) (logs : Nat)
    (h : Process parseIP c msg = ProcOut.ok c' resp err logs) :
    c'.actions = c.actions ∧ c'.protocol = c.protocol := by
  delta Process at h
  by_cases h65 : msg.Code = 65
  · rw [if_pos h65] at h
    cases procOk_state_eq h
    exact ⟨rfl, rfl⟩
  rw [if_neg h65] at h
  by_cases h66 : msg.Code = 66
  · rw [if_pos h66] at h
    dsimp only at h
    cases procOk_state_eq h
    exact ⟨rfl, rfl⟩
  rw [if_neg h66] at h
  by_cases h67 : msg.Code = 67
  · rw [if_pos h67] at h
    dsimp only at h
    repeat' split at h
    all_goals
      first
        | exact ProcOut.noConfusion h
        | (cases procOk_state_eq h; exact ⟨rfl, rfl⟩)
  rw [if_neg h67] at h
  by_cases h68 : msg.Code = 68
  · rw [if_pos h68] at h
    repeat' split at h
    all_goals
      first
        | exact ProcOut.noConfusion h
        | (cases procOk_state_eq h; exact ⟨rfl, rfl⟩)
  rw [if_neg h68] at h
  by_cases h69 : msg.Code = 69
  · rw [if_pos h69] at h
    dsimp only at h
    cases procOk_state_eq h
    exact ⟨rfl, rfl⟩
  rw [if_neg h69] at h
  by_cases h72 : msg.Code = 72
  · rw [if_pos h72] at h
    dsimp only at h
    cases procOk_state_eq h
    exact ⟨rfl, rfl⟩
  rw [if_neg h72] at h
  by_cases h76 : msg.Code = 76
  · rw [if_pos h76] at h
    dsimp only at h
    repeat' split at h
    all_goals
      first
        | exact ProcOut.noConfusion h
        | (cases procOk_state_eq h; exact ⟨rfl, rfl⟩)
  rw [if_neg h76] at h
  by_cases h77 : msg.Code = 77
  · rw [if_pos h77] at h
    dsimp only at h
    cases procOk_state_eq h
    exact ⟨rfl, rfl⟩
  rw [if_neg h77] at h
  by_cases h78 : msg.Code = 78
  · rw [if_pos h78] at h
    dsimp only at h
    cases procOk_state_eq h
    exact ⟨rfl, rfl⟩
  rw [if_neg h78] at h
  by_cases h79 : msg.Code = 79
  · rw [if_pos h79] at h
    cases procOk_state_eq h
    exact ⟨rfl, rfl⟩
  rw [if_neg h79] at h
  by_cases h81 : msg.Code = 81
  · rw [if_pos h81] at h
    cases procOk_state_eq h
    exact ⟨rfl, rfl⟩
  rw [if_neg h81] at h
  by_cases h82 : msg.Code = 82
  · rw [if_pos h82] at h
    dsimp only at h
    cases procOk_state_eq h
    exact ⟨rfl, rfl⟩
  rw [if_neg h82] at h
  by_cases h84 : msg.Code = 84
  · rw [if_pos h84] at h
    cases procOk_state_eq h
    exact ⟨rfl, rfl⟩
  rw [if_neg h84] at h
  cases procOk_state_eq h
  exact ⟨rfl, rfl⟩

/-- Witness for C9 at the abort command on a concrete session. -/
theorem C9_masks_immutable_witness :
    ({ baseSession with headers := none, macros := none } : milterSession).actions
        = baseSession.actions
    ∧ ({ baseSession with headers := none, macros := none } : milterSession).protocol
        = baseSession.protocol :=
  C9_masks_immutable noIP baseSession { Code := 65, Data := [] }
    { baseSession with headers := none, macros := none } none none 0 rfl

/-- C10: a connection-info command whose family byte is none of 'U' (85),
'L' (76), '4' (52), '6' (54) does not fail: no port bytes are consumed,
and the filter's `Connect` callback runs with the empty string as family
name and port 0 (the address being whatever `net.ParseIP` makes of the
rest), its result returned unchanged. -/
theorem C10_unknown_family_connect (parseIP : Bytes → Option Bytes)
    (c : milterSession) (host : Bytes) (fam : Nat) (addr : Bytes)
    (hh : 0 ∉ host) (h85 : fam ≠ 85) (h76 : fam ≠ 76) (h52 : fam ≠ 52)
    (h54 : fam ≠ 54) :
    Process parseIP c { Code := 67, Data := host ++ 0 :: fam :: addr }
      = ProcOut.ok c
          (c.milter.Connect host [] 0 (parseIP (readCString addr))).1
          (c.milter.Connect host [] 0 (parseIP (readCString addr))).2 0 := by
  have h1 : readCString (host ++ 0 :: fam :: addr) = host :=
    readCString_append host (fam :: addr) hh
  have h2 : (host ++ 0 :: fam :: addr).drop (host.length + 1) = fam :: addr := by
    rw [← List.drop_drop]
    simp [List.drop_left]
  have h3 : ¬ (host ++ 0 :: fam :: addr).length < host.length + 1 := by
    simp [List.length_append]
  have hfam : familyName fam = [] := by
    simp [familyName, h85, h76, h52, h54]
  simp [Process, h1, h2, h3, h52, h54, hfam]

/-- Witness for C10: hostname "h", family byte 'X' (88), address "1". -/
theorem C10_unknown_family_connect_witness :
    (0 : Nat) ∉ ([104] : Bytes) ∧ (88 : Nat) ≠ 85 ∧ (88 : Nat) ≠ 76
    ∧ (88 : Nat) ≠ 52 ∧ (88 : Nat) ≠ 54
    ∧ Process noIP baseSession { Code := 67, Data := [104] ++ 0 :: 88 :: [49] }
        = ProcOut.ok baseSession
            (baseSession.milter.Connect [104] [] 0 (noIP (readCString [49]))).1
            (baseSession.milter.Connect [104] [] 0 (noIP (readCString [49]))).2 0 :=
  ⟨by decide, by decide, by decide, by decide, by decide,
    C10_unknown_family_connect noIP baseSession [104] 88 [49]
      (by decide) (by decide) (by decide) (by decide) (by decide)⟩

/-- C5: abort clears per-message state — for any session (hence after any
prior sequence of header and macro commands) an abort command ('A') makes
`Process` return the session with `headers` and `macros` reset to nil
(both empty), with no response and no error; and the session loop, fed an
abort frame followed by anything, just keeps reading the rest on the
cleared session — no write, no log, no close. -/
theorem C5_abort_clears_state (parseIP : Bytes → Option Bytes) (c : milterSession)
    (d rest : Bytes) (h : d.length + 1 < 2 ^ 32) :
    Process parseIP c { Code := 65, Data := d }
      = ProcOut.ok { c with headers := none, macros := none } none none 0
    ∧ HandleMilterCommands parseIP c (be32enc (d.length + 1) ++ 65 :: d ++ rest)
      = HandleMilterCommands parseIP { c with headers := none, macros := none } rest := by
  refine ⟨rfl, ?_⟩
  have hrp := readPacket_encode 65 d rest h
  rw [HandleMilterCommands]
  split
  · rename_i heq
    rw [hrp] at heq
    exact RPOut.noConfusion heq
  · rename_i heq
    rw [hrp] at heq
    exact RPOut.noConfusion heq
  · rename_i msg' rest' heq
    rw [hrp] at heq
    injection heq with e1 e2
    subst e2
    subst e1
    simp [Process]

/-- Witness for C5: an abort frame with empty payload, empty tail. -/
theorem C5_abort_clears_state_witness :
    ([] : Bytes).length + 1 < 2 ^ 32
    ∧ (Process noIP baseSession { Code := 65, Data := [] }
        = ProcOut.ok { baseSession with headers := none, macros := none } none none 0
      ∧ HandleMilterCommands noIP baseSession
          (be32enc (([] : Bytes).length + 1) ++ 65 :: [] ++ [])
        = HandleMilterCommands noIP
            { baseSession with headers := none, macros := none } []) :=
  ⟨by norm_num, C5_abort_clears_state noIP baseSession [] [] (by norm_num)⟩

/-- C8: a frame whose command byte is none of the recognized codes makes
the session loop terminate normally (the deferred socket `Close` runs)
without writing any response bytes; the only observable output is the
"Unrecognized command code" log line from `Process`. -/
theorem C8_unknown_command_closes (parseIP : Bytes → Option Bytes) (c : milterSession)
    (code : Nat) (d rest : Bytes)
    (hcode : code ∉ ([65, 66, 67, 68, 69, 72, 76, 77, 78, 79, 81, 82, 84] : List Nat))
    (h : d.length + 1 < 2 ^ 32) :
    HandleMilterCommands parseIP c (be32enc (d.length + 1) ++ code :: d ++ rest)
      = { written := [], logged := 1, sockClosed := true, exit := LoopExit.normal } := by
  simp only [List.mem_cons, List.not_mem_nil, or_false, not_or] at hcode
  obtain ⟨n65, n66, n67, n68, n69, n72, n76, n77, n78, n79, n81, n82, n84⟩ := hcode
  have hrp := readPacket_encode code d rest h
  have hproc : Process parseIP c { Code := code, Data := d }
      = ProcOut.ok c none (some errCloseSession) 1 := by
    delta Process
    rw [if_neg n65, if_neg n66, if_neg n67, if_neg n68, if_neg n69, if_neg n72,
      if_neg n76, if_neg n77, if_neg n78, if_neg n79, if_neg n81, if_neg n82,
      if_neg n84]
  rw [HandleMilterCommands]
  split
  · rename_i heq
    rw [hrp] at heq
    exact RPOut.noConfusion heq
  · rename_i heq
    rw [hrp] at heq
    exact RPOut.noConfusion heq
  · rename_i msg' rest' heq
    rw [hrp] at heq
    injection heq with e1 e2
    subst e2
    subst e1
    rw [hproc]
    simp

/-- Witness for C8: a frame with unknown command byte 'Z' (90). -/
theorem C8_unknown_command_closes_witness :
    (90 : Nat) ∉ ([65, 66, 67, 68, 69, 72, 76, 77, 78, 79, 81, 82, 84] : List Nat)
    ∧ HandleMilterCommands noIP baseSession
        (be32enc (([] : Bytes).length + 1) ++ 90 :: [] ++ [])
      = { written := [], logged := 1, sockClosed := true, exit := LoopExit.normal } :=
  ⟨by decide,
    C8_unknown_command_closes noIP baseSession 90 [] [] (by decide) (by norm_num)⟩

/-- A header command with a well-formed two-C-string payload adds the
(canonicalized-key, value) pair to the session's header map and invokes
the per-header callback. -/
theorem process_header_adds (parseIP : Bytes → Option Bytes) (c : milterSession)
    (n v : Bytes) (hn : 0 ∉ n) (hv : 0 ∉ v) :
    Process parseIP c { Code := 76, Data := n ++ 0 :: (v ++ [0]) }
      = ProcOut.ok { c with headers := some (mimeAdd (c.headers.getD []) n v) }
          (c.milter.Header n v).1 (c.milter.Header n v).2 0 := by
  have hd : decodeCStrings (n ++ 0 :: (v ++ [0])) = [n, v] := by
    rw [decodeCStrings_cons n (v ++ [0]) hn]
    have hv0 : (v ++ [0] : Bytes) = v ++ 0 :: [] := rfl
    rw [hv0, decodeCStrings_cons v [] hv]
    simp [decodeCStrings]
  simp [Process, hd]

/-- Looking up either canonicalized name after adding two headers to an
empty map yields the sent values, appended in order under their key
(both values under one key when the names canonicalize equally). -/
theorem mimeAdd_two_get (n1 v1 n2 v2 : Bytes) :
    mimeGet (mimeAdd (mimeAdd [] n1 v1) n2 v2) (canonicalMIMEHeaderKey n1)
      = (if canonicalMIMEHeaderKey n1 = canonicalMIMEHeaderKey n2 then [v1, v2]
          else [v1])
    ∧ mimeGet (mimeAdd (mimeAdd [] n1 v1) n2 v2) (canonicalMIMEHeaderKey n2)
      = (if canonicalMIMEHeaderKey n2 = canonicalMIMEHeaderKey n1 then [v1, v2]
          else [v2]) := by
  by_cases h : canonicalMIMEHeaderKey n2 = canonicalMIMEHeaderKey n1
  · constructor <;> simp [mimeAdd, mimeGet, h]
  · have h' : ¬ canonicalMIMEHeaderKey n1 = canonicalMIMEHeaderKey n2 :=
      fun hh => h hh.symm
    constructor <;> simp [mimeAdd, mimeGet, h, h']

/-- C6, counterexample to the claim as stated: headers "x-a: 1" then
"b: 2" followed by end-of-headers deliver a header map whose keys are the
MIME-canonicalized "X-A" and "B"; looking up the name "x-a" as sent finds
nothing, so the pair ("x-a", "1") is not in the delivered set. -/
theorem C6_headers_as_sent_counterexample :
    ((Process noIP ((Process noIP baseSession
          { Code := 76, Data := [120, 45, 97, 0, 49, 0] }).stateOr baseSession)
          { Code := 76, Data := [98, 0, 50, 0] }).stateOr baseSession).headers
      = some [([88, 45, 65], [[49]]), ([66], [[50]])]
    ∧ mimeGet [([88, 45, 65], [[49]]), ([66], [[50]])] [120, 45, 97] = []
    ∧ mimeGet [([88, 45, 65], [[49]]), ([66], [[50]])] [88, 45, 65] = [[49]] := by
  refine ⟨?_, by decide, by decide⟩
  simp [Process, decodeCStrings, readCString, mimeAdd, canonicalMIMEHeaderKey,
    validHeaderFieldByte, canonPass, ProcOut.stateOr, baseSession]

/-- C6, amended: two header commands then end-of-headers deliver to the
`Headers` callback an aggregated map containing both pairs, with values
as sent but names MIME-canonicalized (delivered as sent only when
already canonical): looking up each canonicalized name yields the sent
values, in per-name insertion order.  No cross-key order is claimed —
the delivered Go map is unordered across keys. -/
theorem C6_header_aggregation_amended (parseIP : Bytes → Option Bytes)
    (c c1 c2 : milterSession) (n1 v1 n2 v2 : Bytes)
    (hc : c.headers = none)
    (hn1 : 0 ∉ n1) (hv1 : 0 ∉ v1) (hn2 : 0 ∉ n2) (hv2 : 0 ∉ v2)
    (e1 : c1 = (Process parseIP c
      { Code := 76, Data := n1 ++ 0 :: (v1 ++ [0]) }).stateOr c)
    (e2 : c2 = (Process parseIP c1
      { Code := 76, Data := n2 ++ 0 :: (v2 ++ [0]) }).stateOr c1) :
    c2.headers = some (mimeAdd (mimeAdd [] n1 v1) n2 v2)
    ∧ Process parseIP c2 { Code := 78, Data := [] }
        = ProcOut.ok c2 (c2.milter.Headers c2.headers).1
            (c2.milter.Headers c2.headers).2 0
    ∧ mimeGet (mimeAdd (mimeAdd [] n1 v1) n2 v2) (canonicalMIMEHeaderKey n1)
        = (if canonicalMIMEHeaderKey n1 = canonicalMIMEHeaderKey n2 then [v1, v2]
            else [v1])
    ∧ mimeGet (mimeAdd (mimeAdd [] n1 v1) n2 v2) (canonicalMIMEHeaderKey n2)
        = (if canonicalMIMEHeaderKey n2 = canonicalMIMEHeaderKey n1 then [v1, v2]
            else [v2]) := by
  have s1 : (Process parseIP c
      { Code := 76, Data := n1 ++ 0 :: (v1 ++ [0]) }).stateOr c
      = { c with headers := some (mimeAdd [] n1 v1) } := by
    rw [process_header_adds parseIP c n1 v1 hn1 hv1]
    rw [ProcOut.stateOr, hc]
    rfl
  subst e1
  rw [s1] at e2
  have s2 : (Process parseIP { c with headers := some (mimeAdd [] n1 v1) }
      { Code := 76, Data := n2 ++ 0 :: (v2 ++ [0]) }).stateOr
        { c with headers := some (mimeAdd [] n1 v1) }
      = { c with headers := some (mimeAdd (mimeAdd [] n1 v1) n2 v2) } := by
    rw [process_header_adds parseIP _ n2 v2 hn2 hv2]
    rfl
  rw [s2] at e2
  subst e2
  exact ⟨rfl, rfl, (mimeAdd_two_get n1 v1 n2 v2).1, (mimeAdd_two_get n1 v1 n2 v2).2⟩

/-- Witness for the amended C6 at the headers ("x-a","1"), ("b","2"). -/
theorem C6_header_aggregation_amended_witness :
    ({ baseSession with
        headers := some [([88, 45, 65], [[49]]), ([66], [[50]])] } : milterSession).headers
      = some (mimeAdd (mimeAdd [] [120, 45, 97] [49]) [98] [50])
    ∧ Process noIP
        { baseSession with headers := some [([88, 45, 65], [[49]]), ([66], [[50]])] }
        { Code := 78, Data := [] }
      = ProcOut.ok
          { baseSession with headers := some [([88, 45, 65], [[49]]), ([66], [[50]])] }
          (({ baseSession with
              headers := some [([88, 45, 65], [[49]]), ([66], [[50]])] }
                : milterSession).milter.Headers
            ({ baseSession with
              headers := some [([88, 45, 65], [[49]]), ([66], [[50]])] }
                : milterSession).headers).1
          (({ baseSession with
              headers := some [([88, 45, 65], [[49]]), ([66], [[50]])] }
                : milterSession).milter.Headers
            ({ baseSession with
              headers := some [([88, 45, 65], [[49]]), ([66], [[50]])] }
                : milterSession).headers).2 0
    ∧ mimeGet (mimeAdd (mimeAdd [] [120, 45, 97] [49]) [98] [50])
        (canonicalMIMEHeaderKey [120, 45, 97])
      = (if canonicalMIMEHeaderKey [120, 45, 97] = canonicalMIMEHeaderKey [98]
          then [[49], [50]] else [[49]])
    ∧ mimeGet (mimeAdd (mimeAdd [] [120, 45, 97] [49]) [98] [50])
        (canonicalMIMEHeaderKey [98])
      = (if canonicalMIMEHeaderKey [98] = canonicalMIMEHeaderKey [120, 45, 97]
          then [[49], [50]] else [[50]]) :=
  C6_header_aggregation_amended noIP baseSession
    { baseSession with headers := some [([88, 45, 65], [[49]])] }
    { baseSession with headers := some [([88, 45, 65], [[49]]), ([66], [[50]])] }
    [120, 45, 97] [49] [98] [50] rfl (by decide) (by decide) (by decide) (by decide)
    (by simp [Process, decodeCStrings, readCString, mimeAdd, canonicalMIMEHeaderKey,
      validHeaderFieldByte, canonPass, ProcOut.stateOr, baseSession, nullMilter])
    (by simp [Process, decodeCStrings, readCString, mimeAdd, canonicalMIMEHeaderKey,
      validHeaderFieldByte, canonPass, ProcOut.stateOr, baseSession, nullMilter])

end Milter
